import Mathlib

/-!
Verification of the splitwise expense/settlement core.

This file gives a shallow embedding of the Go sources under
internal/expense (split strategies, expense service, repository) and
internal/settlement (settlement service, repository), and proves or
refutes the frozen claims about them.

Conventions of the embedding:
- Go float64 money values are modelled as exact rationals.
- math.Round (round half away from zero) is modelled by goRound.
- Database rows are modelled by lists in a Store record; SQL queries
  become list filters and maps over that record.
- Go (value, error) returns become Except; a Go nil-pointer
  dereference is modelled by a distinguished error constructor.
- Timestamps (created_at, updated_at) are not modelled.
-/

/-- Rounds half away from zero, as Go math.Round does. -/
def goRound (x : ℚ) : ℤ :=
  if 0 ≤ x then ⌊x + 1/2⌋ else -⌊-x + 1/2⌋

/-- Models roundToTwoDecimals from internal/expense/split:
math.Round(value*100) / 100. -/
def roundToTwoDecimals (value : ℚ) : ℚ :=
  (goRound (value * 100) : ℚ) / 100

/-- A rational that is a whole number of cents. -/
def Cents (x : ℚ) : Prop := ∃ k : ℤ, x = (k : ℚ) / 100

theorem goRound_intCast (k : ℤ) : goRound (k : ℚ) = k := by
  have hfloor : ⌊(1 : ℚ)/2⌋ = 0 := by
    rw [Int.floor_eq_zero_iff]
    constructor <;> norm_num
  unfold goRound
  split
  · rw [Int.floor_int_add, hfloor]; ring
  · rw [show -(k : ℚ) = ((-k : ℤ) : ℚ) by push_cast; ring,
      Int.floor_int_add, hfloor]
    ring

theorem roundToTwoDecimals_of_cents {x : ℚ} (h : Cents x) :
    roundToTwoDecimals x = x := by
  obtain ⟨k, rfl⟩ := h
  unfold roundToTwoDecimals
  rw [div_mul_cancel₀ _ (by norm_num : (100 : ℚ) ≠ 0), goRound_intCast]

theorem cents_roundToTwoDecimals (x : ℚ) : Cents (roundToTwoDecimals x) :=
  ⟨goRound (x * 100), rfl⟩

theorem Cents.add {x y : ℚ} (hx : Cents x) (hy : Cents y) : Cents (x + y) := by
  obtain ⟨k, rfl⟩ := hx
  obtain ⟨m, rfl⟩ := hy
  exact ⟨k + m, by push_cast; ring⟩

theorem Cents.neg {x : ℚ} (hx : Cents x) : Cents (-x) := by
  obtain ⟨k, rfl⟩ := hx
  exact ⟨-k, by push_cast; ring⟩

theorem Cents.sub {x y : ℚ} (hx : Cents x) (hy : Cents y) : Cents (x - y) := by
  simpa [sub_eq_add_neg] using hx.add hy.neg

theorem Cents.mul_natCast {x : ℚ} (hx : Cents x) (n : ℕ) : Cents (x * n) := by
  obtain ⟨k, rfl⟩ := hx
  exact ⟨k * n, by push_cast; ring⟩

theorem Cents.zero : Cents 0 := ⟨0, by norm_num⟩

theorem cents_list_sum {l : List ℚ} (h : ∀ x ∈ l, Cents x) : Cents l.sum := by
  induction l with
  | nil => simpa using Cents.zero
  | cons a t ih =>
    simp only [List.sum_cons]
    exact (h a (by simp)).add (ih fun x hx => h x (by simp [hx]))

/-! Split strategy inputs and outputs (internal/expense/split/strategy.go). -/

/-- Models split.SplitInput: a participant with optional percentage
(PERCENTAGE split) and optional amount (EXACT split). -/
structure SplitInput where
  userID : Int
  percentage : Option ℚ
  amount : Option ℚ
deriving DecidableEq, Repr

/-- Models split.SplitOutput: the calculated split for one participant. -/
structure SplitOutput where
  userID : Int
  amountOwed : ℚ
deriving DecidableEq, Repr

deriving instance DecidableEq for Except

/-- Models the error values declared in internal/expense/split/strategy.go. -/
inductive SplitErr where
  | noParticipants
  | invalidPercentages
  | invalidExactAmounts
  | negativeAmount
  | missingPercentage
  | missingExactAmount
  | percentageOutOfRange
deriving DecidableEq, Repr

/-- Models filterPayer: removes the payer from participants. -/
def filterPayer (payerID : Int) (participants : List SplitInput) : List SplitInput :=
  participants.filter (fun p => p.userID != payerID)

/-! EVEN strategy (internal/expense/split, EvenStrategy). -/

/-- Models EvenStrategy.Validate. -/
def EvenStrategy.Validate (totalAmount : ℚ) (participants : List SplitInput) :
    Except SplitErr Unit :=
  if participants.length = 0 then .error .noParticipants
  else if totalAmount < 0 then .error .negativeAmount
  else .ok ()

/-- Models EvenStrategy.Calculate: per-head share rounded to cents, the
first debtor absorbing the rounding difference. -/
def EvenStrategy.Calculate (totalAmount : ℚ) (payerID : Int)
    (participants : List SplitInput) : Except SplitErr (List SplitOutput) :=
  match EvenStrategy.Validate totalAmount participants with
  | .error e => .error e
  | .ok _ =>
    match filterPayer payerID participants with
    | [] => .ok []
    | d0 :: rest =>
      let totalParticipants : ℚ := participants.length
      let sharePerPerson := roundToTwoDecimals (totalAmount / totalParticipants)
      let totalDistributed := sharePerPerson * ((d0 :: rest).length : ℚ)
      let expectedFromDebtors := totalAmount - sharePerPerson
      let roundingDifference :=
        roundToTwoDecimals (expectedFromDebtors - totalDistributed)
      let amount0 :=
        if roundingDifference ≠ 0
        then roundToTwoDecimals (sharePerPerson + roundingDifference)
        else sharePerPerson
      .ok ({ userID := d0.userID, amountOwed := amount0 } ::
        rest.map (fun d => { userID := d.userID, amountOwed := sharePerPerson }))

example : EvenStrategy.Calculate 90 1
    [⟨1, none, none⟩, ⟨2, none, none⟩, ⟨3, none, none⟩]
    = .ok [⟨2, 30⟩, ⟨3, 30⟩] := by
  simp only [EvenStrategy.Calculate, EvenStrategy.Validate, filterPayer]
  norm_num
  norm_num [roundToTwoDecimals, goRound, Int.floor_eq_iff]

example : EvenStrategy.Calculate (1/200) 1 [⟨1, none, none⟩, ⟨2, none, none⟩]
    = .ok [⟨2, 1/100⟩] := by
  simp only [EvenStrategy.Calculate, EvenStrategy.Validate, filterPayer]
  norm_num
  norm_num [roundToTwoDecimals, goRound, Int.floor_eq_iff]

/-! PERCENTAGE strategy (internal/expense/split, PercentageStrategy). -/

/-- Models the percentage-accumulation loop of PercentageStrategy.Validate:
each participant must carry a percentage in the range 0 to 100; the first
offending participant determines the error, as in the Go loop. -/
def sumPercentages : List SplitInput → Except SplitErr ℚ
  | [] => .ok 0
  | p :: rest =>
    match p.percentage with
    | none => .error .missingPercentage
    | some pct =>
      if pct < 0 ∨ pct > 100 then .error .percentageOutOfRange
      else
        match sumPercentages rest with
        | .error e => .error e
        | .ok s => .ok (pct + s)

/-- Models PercentageStrategy.Validate. -/
def PercentageStrategy.Validate (totalAmount : ℚ) (participants : List SplitInput) :
    Except SplitErr Unit :=
  if participants.length = 0 then .error .noParticipants
  else if totalAmount < 0 then .error .negativeAmount
  else
    match sumPercentages participants with
    | .error e => .error e
    | .ok totalPercentage =>
      if |totalPercentage - 100| > 1/100 then .error .invalidPercentages
      else .ok ()

/-- Models the loop in PercentageStrategy.Calculate that finds the payer
percentage: the first participant whose userID is the payer and whose
percentage is present; 0 when no such participant exists. -/
def payerPercentageOf (payerID : Int) : List SplitInput → ℚ
  | [] => 0
  | p :: rest =>
    if p.userID = payerID ∧ p.percentage ≠ none then p.percentage.getD 0
    else payerPercentageOf payerID rest

/-- Replaces the amount of the last output by its rounded sum with the
difference, as the in-place array update in PercentageStrategy.Calculate. -/
def adjustLast : List SplitOutput → ℚ → List SplitOutput
  | [], _ => []
  | [o], difference =>
    [{ o with amountOwed := roundToTwoDecimals (o.amountOwed + difference) }]
  | o :: o1 :: rest, difference => o :: adjustLast (o1 :: rest) difference

/-- Models PercentageStrategy.Calculate. The Option dereference on each
debtor percentage is total after Validate; getD 0 renders it. -/
def PercentageStrategy.Calculate (totalAmount : ℚ) (payerID : Int)
    (participants : List SplitInput) : Except SplitErr (List SplitOutput) :=
  match PercentageStrategy.Validate totalAmount participants with
  | .error e => .error e
  | .ok _ =>
    let debtors := filterPayer payerID participants
    if debtors.isEmpty then .ok []
    else
      let outputs := debtors.map (fun d =>
        { userID := d.userID,
          amountOwed := roundToTwoDecimals (totalAmount * d.percentage.getD 0 / 100) })
      let totalCalculated := (outputs.map SplitOutput.amountOwed).sum
      let payerPercentage := payerPercentageOf payerID participants
      let expectedFromDebtors :=
        roundToTwoDecimals (totalAmount * (100 - payerPercentage) / 100)
      let difference := roundToTwoDecimals (expectedFromDebtors - totalCalculated)
      if 0 < outputs.length ∧ difference ≠ 0
      then .ok (adjustLast outputs difference)
      else .ok outputs

/-! EXACT strategy (internal/expense/split, ExactStrategy). -/

/-- Models the amount-accumulation loop of ExactStrategy.Validate. -/
def sumExactAmounts : List SplitInput → Except SplitErr ℚ
  | [] => .ok 0
  | p :: rest =>
    match p.amount with
    | none => .error .missingExactAmount
    | some a =>
      if a < 0 then .error .negativeAmount
      else
        match sumExactAmounts rest with
        | .error e => .error e
        | .ok s => .ok (a + s)

/-- Models ExactStrategy.Validate. -/
def ExactStrategy.Validate (totalAmount : ℚ) (participants : List SplitInput) :
    Except SplitErr Unit :=
  if participants.length = 0 then .error .noParticipants
  else if totalAmount < 0 then .error .negativeAmount
  else
    match sumExactAmounts participants with
    | .error e => .error e
    | .ok totalExact =>
      if |totalExact - totalAmount| > 1/100 then .error .invalidExactAmounts
      else .ok ()

/-- Models ExactStrategy.Calculate: each debtor owes the rounded stated
amount verbatim. -/
def ExactStrategy.Calculate (totalAmount : ℚ) (payerID : Int)
    (participants : List SplitInput) : Except SplitErr (List SplitOutput) :=
  match ExactStrategy.Validate totalAmount participants with
  | .error e => .error e
  | .ok _ =>
    let debtors := filterPayer payerID participants
    if debtors.isEmpty then .ok []
    else .ok (debtors.map (fun d =>
      { userID := d.userID, amountOwed := roundToTwoDecimals (d.amount.getD 0) }))

example : PercentageStrategy.Calculate 100 1
    [⟨1, some 0, none⟩, ⟨2, some 50, none⟩, ⟨3, some 30, none⟩, ⟨4, some 20, none⟩]
    = .ok [⟨2, 50⟩, ⟨3, 30⟩, ⟨4, 20⟩] := by
  simp only [PercentageStrategy.Calculate, PercentageStrategy.Validate,
    sumPercentages, payerPercentageOf, filterPayer, adjustLast]
  norm_num
  norm_num [roundToTwoDecimals, goRound, Int.floor_eq_iff]

example : ExactStrategy.Calculate 75 1
    [⟨1, none, some 30⟩, ⟨2, none, some 25⟩, ⟨3, none, some 20⟩]
    = .ok [⟨2, 25⟩, ⟨3, 20⟩] := by
  simp only [ExactStrategy.Calculate, ExactStrategy.Validate,
    sumExactAmounts, filterPayer]
  norm_num
  norm_num [roundToTwoDecimals, goRound, Int.floor_eq_iff]

/-! Data model: expense and split rows (internal/expense, part_003) and
settlement rows (internal/settlement). -/

/-- Models expense.SplitStatus. -/
inductive SplitStatus where
  | pending
  | paid
  | confirmed
  | disputed
deriving DecidableEq, Repr

/-- Models an expenses table row (expense.Expense); image URL, username
join column and created_at are not modelled. -/
structure Expense where
  id : Int
  groupID : Int
  payerID : Int
  description : String
  amount : ℚ
deriving DecidableEq, Repr

/-- Models a splits table row (expense.Split); username join column and
updated_at are not modelled. -/
structure Split where
  id : Int
  expenseID : Int
  borrowerID : Int
  amountOwed : ℚ
  status : SplitStatus
  disputeReason : Option String
  settlementID : Option Int
deriving DecidableEq, Repr

/-- Models settlement.SettlementStatus. -/
inductive SettlementStatus where
  | pending
  | paid
  | confirmed
  | rejected
deriving DecidableEq, Repr

/-- Models a settlements table row (settlement.Settlement); currency code
(a constant SAR passthrough), username join columns and created_at are
not modelled. -/
structure Settlement where
  id : Int
  payerID : Int
  receiverID : Int
  amount : ℚ
  status : SettlementStatus
deriving DecidableEq, Repr

/-- The database state shared by the expense and settlement repositories.
nextSettlementID stands for the serial id column of settlements. -/
structure Store where
  expenses : List Expense
  splits : List Split
  settlements : List Settlement
  nextSettlementID : Int
deriving DecidableEq, Repr

/-! Expense repository queries (internal/expense/repository.go). -/

/-- Models Repository.GetSplitByID: SELECT from splits WHERE id. -/
def GetSplitByID (st : Store) (id : Int) : Option Split :=
  st.splits.find? (fun s => s.id == id)

/-- Models Repository.GetExpenseByID: SELECT from expenses WHERE id. -/
def GetExpenseByID (st : Store) (id : Int) : Option Expense :=
  st.expenses.find? (fun e => e.id == id)

/-- The payer of the expense a split joins to, as the JOIN expenses in
the outstanding-split queries. -/
def expensePayerOf (st : Store) (expenseID : Int) : Option Int :=
  (GetExpenseByID st expenseID).map Expense.payerID

/-- The WHERE clause shared by GetPendingSplitsBetweenUsers and the net
balance query: borrower matches, the joined expense payer matches, status
is PENDING or PAID, and settlement_id IS NULL. -/
def isOutstandingSplit (st : Store) (borrowerID payerID : Int) (s : Split) : Bool :=
  s.borrowerID == borrowerID &&
  expensePayerOf st s.expenseID == some payerID &&
  (s.status == .pending || s.status == .paid) &&
  s.settlementID == none

/-- Models Repository.GetPendingSplitsBetweenUsers: all unlocked
PENDING or PAID splits where borrowerID owes payerID. -/
def GetPendingSplitsBetweenUsers (st : Store) (borrowerID payerID : Int) :
    List Split :=
  st.splits.filter (isOutstandingSplit st borrowerID payerID)

/-- Models Repository.UpdateSplitStatus: UPDATE splits SET status,
dispute_reason WHERE id, RETURNING the updated row. -/
def UpdateSplitStatus (st : Store) (id : Int) (status : SplitStatus)
    (disputeReason : Option String) : Store × Option Split :=
  let updated := st.splits.map (fun s =>
    if s.id == id then { s with status := status, disputeReason := disputeReason }
    else s)
  ({ st with splits := updated }, updated.find? (fun s => s.id == id))

/-- Models one loop iteration of Repository.LockSplitsToSettlement:
UPDATE splits SET settlement_id WHERE id. -/
def lockSplitOne (st : Store) (splitID settlementID : Int) : Store :=
  { st with splits := st.splits.map (fun s =>
      if s.id == splitID then { s with settlementID := some settlementID }
      else s) }

/-- Models Repository.LockSplitsToSettlement: one UPDATE per id, in order. -/
def LockSplitsToSettlement (st : Store) (splitIDs : List Int)
    (settlementID : Int) : Store :=
  splitIDs.foldl (fun acc splitID => lockSplitOne acc splitID settlementID) st

/-- Models Repository.UnlockSplitsFromSettlement: UPDATE splits SET
settlement_id = NULL WHERE settlement_id matches. -/
def UnlockSplitsFromSettlement (st : Store) (settlementID : Int) : Store :=
  { st with splits := st.splits.map (fun s =>
      if s.settlementID == some settlementID then { s with settlementID := none }
      else s) }

/-- Models Repository.ConfirmSplitsBySettlement: UPDATE splits SET status
CONFIRMED WHERE settlement_id matches. -/
def ConfirmSplitsBySettlement (st : Store) (settlementID : Int) : Store :=
  { st with splits := st.splits.map (fun s =>
      if s.settlementID == some settlementID then { s with status := .confirmed }
      else s) }

/-! Settlement repository (internal/settlement/repository.go). -/

/-- Models settlement Repository.Create: INSERT a PENDING settlement and
return the new row with its serial id. -/
def SettlementRepoCreate (st : Store) (payerID receiverID : Int) (amount : ℚ) :
    Store × Settlement :=
  let settlement : Settlement :=
    { id := st.nextSettlementID, payerID := payerID, receiverID := receiverID,
      amount := amount, status := .pending }
  ({ st with
      settlements := st.settlements ++ [settlement]
      nextSettlementID := st.nextSettlementID + 1 },
    settlement)

/-- Models settlement Repository.GetByID. -/
def GetSettlementByID (st : Store) (id : Int) : Option Settlement :=
  st.settlements.find? (fun s => s.id == id)

/-- Models settlement Repository.UpdateStatus: UPDATE settlements SET
status WHERE id, RETURNING the updated row. -/
def UpdateSettlementStatus (st : Store) (id : Int) (status : SettlementStatus) :
    Store × Option Settlement :=
  let updated := st.settlements.map (fun s =>
    if s.id == id then { s with status := status } else s)
  ({ st with settlements := updated }, updated.find? (fun s => s.id == id))

/-- Models Repository.GetNetBalanceBetweenUsers: the sum of what userID
owes otherUserID minus the sum of what otherUserID owes userID, over
unlocked PENDING or PAID splits joined to their expenses. -/
def GetNetBalanceBetweenUsers (st : Store) (userID otherUserID : Int) : ℚ :=
  ((GetPendingSplitsBetweenUsers st userID otherUserID).map Split.amountOwed).sum
    - ((GetPendingSplitsBetweenUsers st otherUserID userID).map Split.amountOwed).sum

/-! Expense service (internal/expense/service.go). -/

/-- Models the error values of internal/expense/service.go. The
nilExpenseDeref constructor stands for the Go nil-pointer dereference in
ConfirmSplitPayment when the joined expense row is absent. -/
inductive ExpenseErr where
  | expenseNotFound
  | splitNotFound
  | splitLocked
  | notBorrower
  | notPayer
  | invalidStatusChange
  | cannotDeleteExpense
  | nilExpenseDeref
deriving DecidableEq, Repr

/-- Models Service.MarkSplitAsPaid: borrower check, then settlement lock
check, then PENDING status check, then the update. -/
def MarkSplitAsPaid (st : Store) (splitID borrowerID : Int) :
    Except ExpenseErr (Store × Option Split) :=
  match GetSplitByID st splitID with
  | none => .error .splitNotFound
  | some split =>
    if split.borrowerID ≠ borrowerID then .error .notBorrower
    else if split.settlementID ≠ none then .error .splitLocked
    else if split.status ≠ .pending then .error .invalidStatusChange
    else .ok (UpdateSplitStatus st splitID .paid none)

/-- Models Service.ConfirmSplitPayment: payer check against the joined
expense, then settlement lock check, then PAID status check, then the
update. -/
def ConfirmSplitPayment (st : Store) (splitID payerID : Int) :
    Except ExpenseErr (Store × Option Split) :=
  match GetSplitByID st splitID with
  | none => .error .splitNotFound
  | some split =>
    match GetExpenseByID st split.expenseID with
    | none => .error .nilExpenseDeref
    | some expense =>
      if expense.payerID ≠ payerID then .error .notPayer
      else if split.settlementID ≠ none then .error .splitLocked
      else if split.status ≠ .paid then .error .invalidStatusChange
      else .ok (UpdateSplitStatus st splitID .confirmed none)

/-- Models Service.DisputeSplit: borrower check, then PENDING-or-PAID
status check, then the update. The service performs no settlement lock
check on this path. -/
def DisputeSplit (st : Store) (splitID borrowerID : Int) (reason : String) :
    Except ExpenseErr (Store × Option Split) :=
  match GetSplitByID st splitID with
  | none => .error .splitNotFound
  | some split =>
    if split.borrowerID ≠ borrowerID then .error .notBorrower
    else if split.status ≠ .pending ∧ split.status ≠ .paid then
      .error .invalidStatusChange
    else .ok (UpdateSplitStatus st splitID .disputed (some reason))

/-- Error outcomes of the dispute HTTP handler (part_002,
Handler.DisputeSplit): an empty reason is rejected with a BadRequest
before the service runs; every service error is passed through. -/
inductive DisputeHandlerErr where
  | reasonRequired
  | service (e : ExpenseErr)
deriving DecidableEq, Repr

/-- Models Handler.DisputeSplit from part_002 after routing and body
decoding: the handler rejects an empty dispute reason with a BadRequest
and otherwise calls Service.DisputeSplit with the actor identity. -/
def DisputeSplitViaHandler (st : Store) (splitID actorID : Int) (reason : String) :
    Except DisputeHandlerErr (Store × Option Split) :=
  if reason = "" then .error .reasonRequired
  else
    match DisputeSplit st splitID actorID reason with
    | .error e => .error (.service e)
    | .ok out => .ok out

/-! Settlement service (internal/settlement/service.go). -/

/-- Models the error values of internal/settlement/service.go. -/
inductive SettlementErr where
  | settlementNotFound
  | alreadySettled
  | notPayer
  | notReceiver
  | invalidStatusChange
  | cannotSettleSelf
deriving DecidableEq, Repr

/-- Models Service.CreateSettlement: reject self-settlement, derive payer,
receiver and amount from the net balance, fail with alreadySettled when
the net is zero and no unlocked outstanding splits exist in either
direction, then create the PENDING settlement and lock every unlocked
outstanding split between the two users in both directions to it. -/
def CreateSettlement (st : Store) (initiatorID otherUserID : Int) :
    Except SettlementErr (Store × Settlement) :=
  if initiatorID = otherUserID then .error .cannotSettleSelf
  else
    let netBalance := GetNetBalanceBetweenUsers st initiatorID otherUserID
    let roles : Option (Int × Int × ℚ) :=
      if netBalance > 0 then
        some (initiatorID, otherUserID, roundToTwoDecimals netBalance)
      else if netBalance < 0 then
        some (otherUserID, initiatorID, roundToTwoDecimals (-netBalance))
      else
        let splits1 := GetPendingSplitsBetweenUsers st initiatorID otherUserID
        let splits2 := GetPendingSplitsBetweenUsers st otherUserID initiatorID
        if splits1.length = 0 ∧ splits2.length = 0 then none
        else some (initiatorID, otherUserID, 0)
    match roles with
    | none => .error .alreadySettled
    | some (payerID, receiverID, amount) =>
      let splitsInitiatorOwes := GetPendingSplitsBetweenUsers st initiatorID otherUserID
      let splitsOtherOwes := GetPendingSplitsBetweenUsers st otherUserID initiatorID
      let created := SettlementRepoCreate st payerID receiverID amount
      let allSplitIDs := (splitsInitiatorOwes ++ splitsOtherOwes).map Split.id
      if 0 < allSplitIDs.length then
        .ok (LockSplitsToSettlement created.1 allSplitIDs created.2.id, created.2)
      else
        .ok (created.1, created.2)

/-- Models Service.MarkAsPaid for settlements. -/
def SettlementMarkAsPaid (st : Store) (settlementID userID : Int) :
    Except SettlementErr (Store × Option Settlement) :=
  match GetSettlementByID st settlementID with
  | none => .error .settlementNotFound
  | some settlement =>
    if settlement.payerID ≠ userID then .error .notPayer
    else if settlement.status ≠ .pending then .error .invalidStatusChange
    else .ok (UpdateSettlementStatus st settlementID .paid)

/-- Models Service.Confirm for settlements: receiver check, PAID status
check, status update, then bulk confirmation of every split locked to
the settlement. -/
def SettlementConfirm (st : Store) (settlementID userID : Int) :
    Except SettlementErr (Store × Option Settlement) :=
  match GetSettlementByID st settlementID with
  | none => .error .settlementNotFound
  | some settlement =>
    if settlement.receiverID ≠ userID then .error .notReceiver
    else if settlement.status ≠ .paid then .error .invalidStatusChange
    else
      let updated := UpdateSettlementStatus st settlementID .confirmed
      .ok (ConfirmSplitsBySettlement updated.1 settlementID, updated.2)

/-- Models Service.Reject for settlements: receiver check, PENDING or
PAID status check, status update, then unlock of every split locked to
the settlement. -/
def SettlementReject (st : Store) (settlementID userID : Int) :
    Except SettlementErr (Store × Option Settlement) :=
  match GetSettlementByID st settlementID with
  | none => .error .settlementNotFound
  | some settlement =>
    if settlement.receiverID ≠ userID then .error .notReceiver
    else if settlement.status ≠ .pending ∧ settlement.status ≠ .paid then
      .error .invalidStatusChange
    else
      let updated := UpdateSettlementStatus st settlementID .rejected
      .ok (UnlockSplitsFromSettlement updated.1 settlementID, updated.2)

/-! Helper lemmas about the repository operations. -/

/-- The id-by-id lock loop acts on the splits list as a single map over
the collected id list. -/
theorem lockSplits_splits (ids : List Int) (st : Store) (settlementID : Int) :
    (LockSplitsToSettlement st ids settlementID).splits
      = st.splits.map (fun s =>
          if ids.contains s.id then { s with settlementID := some settlementID }
          else s) := by
  induction ids generalizing st with
  | nil =>
    simp [LockSplitsToSettlement]
  | cons id0 rest ih =>
    have hstep : LockSplitsToSettlement st (id0 :: rest) settlementID
        = LockSplitsToSettlement (lockSplitOne st id0 settlementID) rest settlementID := rfl
    rw [hstep, ih]
    simp only [lockSplitOne, List.map_map]
    apply List.map_congr_left
    intro s _
    by_cases h0 : s.id = id0 <;> by_cases hr : s.id ∈ rest <;>
      simp [Function.comp, h0, hr, List.contains_cons]

/-- The lock loop touches only the splits list. -/
theorem lockSplits_expenses (ids : List Int) (st : Store) (settlementID : Int) :
    (LockSplitsToSettlement st ids settlementID).expenses = st.expenses ∧
    (LockSplitsToSettlement st ids settlementID).settlements = st.settlements ∧
    (LockSplitsToSettlement st ids settlementID).nextSettlementID
      = st.nextSettlementID := by
  induction ids generalizing st with
  | nil => exact ⟨rfl, rfl, rfl⟩
  | cons id0 rest ih => exact ih (lockSplitOne st id0 settlementID)

/-- A list is pointwise related to its image under a map when the function
satisfies the relation at every element. -/
theorem forall₂_map_self {α : Type} {P : α → α → Prop} (f : α → α)
    (hf : ∀ s, P s (f s)) : ∀ l : List α, List.Forall₂ P l (l.map f)
  | [] => List.Forall₂.nil
  | a :: t => List.Forall₂.cons (hf a) (forall₂_map_self f hf t)

/-- CLAIM C9. The net balance query is antisymmetric: for every store and
every pair of users, GetNetBalanceBetweenUsers a b is the negation of
GetNetBalanceBetweenUsers b a. -/
theorem netBalance_antisymm (st : Store) (a b : Int) :
    GetNetBalanceBetweenUsers st a b = -GetNetBalanceBetweenUsers st b a := by
  simp only [GetNetBalanceBetweenUsers]
  ring

/-- CLAIM C10. Locking splits to a settlement and unlocking splits from a
settlement preserve, for every split row, its id, expense reference,
borrower, amount owed, status and dispute reason: only the
settlement-lock reference changes. -/
theorem lock_unlock_frame (st : Store) (splitIDs : List Int) (settlementID : Int) :
    List.Forall₂ (fun s s2 =>
        s2.id = s.id ∧ s2.expenseID = s.expenseID ∧ s2.borrowerID = s.borrowerID ∧
        s2.amountOwed = s.amountOwed ∧ s2.status = s.status ∧
        s2.disputeReason = s.disputeReason)
      st.splits (LockSplitsToSettlement st splitIDs settlementID).splits ∧
    List.Forall₂ (fun s s2 =>
        s2.id = s.id ∧ s2.expenseID = s.expenseID ∧ s2.borrowerID = s.borrowerID ∧
        s2.amountOwed = s.amountOwed ∧ s2.status = s.status ∧
        s2.disputeReason = s.disputeReason)
      st.splits (UnlockSplitsFromSettlement st settlementID).splits := by
  constructor
  · rw [lockSplits_splits]
    apply forall₂_map_self
    intro s
    by_cases h : s.id ∈ splitIDs <;> simp [h]
  · apply forall₂_map_self
    intro s
    by_cases h : s.settlementID = some settlementID <;> simp [UnlockSplitsFromSettlement, h]

/-- CLAIM C8. After a successful settlement confirmation, every split
locked to that settlement has status CONFIRMED. -/
theorem confirm_bulk_confirms_locked_splits (st : Store) (settlementID userID : Int)
    (st2 : Store) (x : Option Settlement)
    (h : SettlementConfirm st settlementID userID = .ok (st2, x)) :
    ∀ s ∈ st2.splits, s.settlementID = some settlementID → s.status = .confirmed := by
  unfold SettlementConfirm at h
  split at h
  · exact absurd h (by simp)
  · split_ifs at h with h1 h2
    have hinj : (Except.ok
        (ConfirmSplitsBySettlement
          (UpdateSettlementStatus st settlementID .confirmed).1 settlementID,
          (UpdateSettlementStatus st settlementID .confirmed).2)
        : Except SettlementErr (Store × Option Settlement)) = .ok (st2, x) := h
    cases hinj
    intro s hs hsid
    simp only [ConfirmSplitsBySettlement, List.mem_map] at hs
    obtain ⟨t, -, rfl⟩ := hs
    by_cases hlock : t.settlementID = some settlementID
    · simp [hlock]
    · exfalso
      rw [if_neg (by simpa using hlock)] at hsid
      exact hlock hsid

/-! Concrete stores used by witnesses and counterexamples. -/

/-- An expense of 30 paid by user 2 in group 1. -/
def dinnerExpense : Expense :=
  ⟨1, 1, 2, "dinner", 30⟩

/-- A PENDING split of 15 owed by user 3 on the dinner expense, locked to
settlement 9. -/
def lockedSplit : Split :=
  ⟨1, 1, 3, 15, .pending, none, some 9⟩

/-- A PENDING split of 15 owed by user 3 on the dinner expense, unlocked. -/
def pendingSplit : Split :=
  ⟨1, 1, 3, 15, .pending, none, none⟩

/-- A store holding one expense paid by user 2 whose single split, owed by
user 3, is PENDING and locked to settlement 9. -/
def lockedStore : Store :=
  ⟨[dinnerExpense], [lockedSplit], [⟨9, 3, 2, 15, .pending⟩], 10⟩

/-- A store holding one expense paid by user 2 whose single split, owed by
user 3, is PENDING and unlocked. -/
def pendingStore : Store :=
  ⟨[dinnerExpense], [pendingSplit], [], 1⟩

/-- CLAIM C1, counterexample. On a locked PENDING split, a dispute by the
borrower does not fail with splitLocked: it succeeds and transitions the
split to DISPUTED, because Service.DisputeSplit never inspects the
settlement lock. Moreover a pay or confirm attempt by a wrong actor on
the same locked split fails with notBorrower or notPayer, not with
splitLocked. -/
theorem dispute_on_locked_split_succeeds :
    DisputeSplit lockedStore 1 3 "wrong amount"
      = .ok (UpdateSplitStatus lockedStore 1 .disputed (some "wrong amount")) ∧
    MarkSplitAsPaid lockedStore 1 4 = .error .notBorrower ∧
    ConfirmSplitPayment lockedStore 1 4 = .error .notPayer :=
  ⟨rfl, rfl, rfl⟩

/-- CLAIM C1, amended. On a split carrying a settlement lock, a pay
attempt by the borrower fails with splitLocked, and a confirm attempt by
the payer of the owning expense fails with splitLocked, whatever the
status of the split; but a dispute by the borrower performs no lock check
at all: from PENDING or PAID it succeeds and marks the split DISPUTED
even when the split is locked. -/
theorem locked_split_guards (st : Store) (id actor : Int) :
    (∀ s, GetSplitByID st id = some s → s.borrowerID = actor →
      s.settlementID ≠ none →
      MarkSplitAsPaid st id actor = .error .splitLocked) ∧
    (∀ s e, GetSplitByID st id = some s → GetExpenseByID st s.expenseID = some e →
      e.payerID = actor → s.settlementID ≠ none →
      ConfirmSplitPayment st id actor = .error .splitLocked) ∧
    (∀ s reason, GetSplitByID st id = some s → s.borrowerID = actor →
      (s.status = .pending ∨ s.status = .paid) →
      DisputeSplit st id actor reason
        = .ok (UpdateSplitStatus st id .disputed (some reason))) := by
  refine ⟨?_, ?_, ?_⟩
  · intro s hfind hbor hlock
    unfold MarkSplitAsPaid
    rw [hfind]
    simp [hbor, hlock]
  · intro s e hfind hexp hpayer hlock
    unfold ConfirmSplitPayment
    rw [hfind]
    simp only
    rw [hexp]
    simp [hpayer, hlock]
  · intro s reason hfind hbor hstat
    unfold DisputeSplit
    rw [hfind]
    rcases hstat with hstat | hstat <;> simp [hbor, hstat]

/-- CLAIM C1, witness: the amended guards evaluated on the locked store. -/
theorem locked_split_guards_witness :
    MarkSplitAsPaid lockedStore 1 3 = .error .splitLocked ∧
    ConfirmSplitPayment lockedStore 1 2 = .error .splitLocked ∧
    DisputeSplit lockedStore 1 3 "late"
      = .ok (UpdateSplitStatus lockedStore 1 .disputed (some "late")) := by
  refine ⟨?_, ?_, ?_⟩
  · exact (locked_split_guards lockedStore 1 3).1 lockedSplit rfl rfl
      (by simp [lockedSplit])
  · exact (locked_split_guards lockedStore 1 2).2.1 lockedSplit dinnerExpense rfl rfl rfl
      (by simp [lockedSplit])
  · exact (locked_split_guards lockedStore 1 3).2.2 lockedSplit "late" rfl rfl
      (Or.inl rfl)

/-- CLAIM C2. A dispute attempt through the HTTP handler succeeds only
when the supplied reason is non-empty and the actor is the borrower of
the split; with an empty reason it fails with a BadRequest before the
service can transition the split. -/
theorem dispute_requires_borrower_and_reason (st : Store) (splitID actorID : Int)
    (reason : String) :
    (∀ out, DisputeSplitViaHandler st splitID actorID reason = .ok out →
      reason ≠ "" ∧ ∃ s, GetSplitByID st splitID = some s ∧ s.borrowerID = actorID) ∧
    (reason = "" →
      DisputeSplitViaHandler st splitID actorID reason = .error .reasonRequired) := by
  constructor
  · intro out hok
    by_cases hr : reason = ""
    · rw [DisputeSplitViaHandler, if_pos hr] at hok
      exact absurd hok (by simp)
    · refine ⟨hr, ?_⟩
      rw [DisputeSplitViaHandler, if_neg hr] at hok
      unfold DisputeSplit at hok
      cases hfind : GetSplitByID st splitID with
      | none => rw [hfind] at hok; exact absurd hok (by simp)
      | some s =>
        rw [hfind] at hok
        refine ⟨s, rfl, ?_⟩
        by_cases hbor : s.borrowerID = actorID
        · exact hbor
        · simp [hbor] at hok
  · intro hr
    rw [DisputeSplitViaHandler, if_pos hr]

/-- CLAIM C2, witness: on the unlocked pending store, an empty-reason
dispute by the borrower is rejected, and a successful dispute certifies
the borrower identity and a non-empty reason. -/
theorem dispute_requires_borrower_and_reason_witness :
    DisputeSplitViaHandler pendingStore 1 3 "" = .error .reasonRequired ∧
    ("late" ≠ "" ∧ ∃ s, GetSplitByID pendingStore 1 = some s ∧ s.borrowerID = 3) := by
  constructor
  · exact (dispute_requires_borrower_and_reason pendingStore 1 3 "").2 rfl
  · exact (dispute_requires_borrower_and_reason pendingStore 1 3 "late").1
      (UpdateSplitStatus pendingStore 1 .disputed (some "late")) rfl

/-- A store with one PAID split of 15 owed by user 3, locked to
settlement 5, whose settlement (payer 3, receiver 2) is PAID. -/
def paidSettlementStore : Store :=
  ⟨[dinnerExpense], [⟨1, 1, 3, 15, .paid, none, some 5⟩], [⟨5, 3, 2, 15, .paid⟩], 6⟩

/-- CLAIM C8, witness: confirming settlement 5 on the paid store leaves
every split locked to it CONFIRMED. -/
theorem confirm_bulk_confirms_locked_splits_witness :
    ∃ out, SettlementConfirm paidSettlementStore 5 2 = .ok out ∧
      ∀ s ∈ out.1.splits, s.settlementID = some 5 → s.status = .confirmed := by
  have hconf : SettlementConfirm paidSettlementStore 5 2
      = .ok (⟨[dinnerExpense], [⟨1, 1, 3, 15, .confirmed, none, some 5⟩],
          [⟨5, 3, 2, 15, .confirmed⟩], 6⟩, some ⟨5, 3, 2, 15, .confirmed⟩) := rfl
  exact ⟨_, hconf, confirm_bulk_confirms_locked_splits paidSettlementStore 5 2 _ _ hconf⟩

/-- CLAIM C3. With distinct users, CreateSettlement derives direction and
amount from the net balance: positive net makes the initiator the payer
with round2(net); negative net makes the other user the payer with
round2(-net); zero net with no unlocked outstanding splits in either
direction fails with alreadySettled; zero net with such splits creates a
zero-amount settlement from the initiator to the other user. -/
theorem createSettlement_direction (st : Store) (a b : Int) (hab : a ≠ b) :
    (0 < GetNetBalanceBetweenUsers st a b →
      ∃ st2, CreateSettlement st a b = .ok (st2,
        { id := st.nextSettlementID, payerID := a, receiverID := b,
          amount := roundToTwoDecimals (GetNetBalanceBetweenUsers st a b),
          status := .pending })) ∧
    (GetNetBalanceBetweenUsers st a b < 0 →
      ∃ st2, CreateSettlement st a b = .ok (st2,
        { id := st.nextSettlementID, payerID := b, receiverID := a,
          amount := roundToTwoDecimals (-GetNetBalanceBetweenUsers st a b),
          status := .pending })) ∧
    (GetNetBalanceBetweenUsers st a b = 0 →
      GetPendingSplitsBetweenUsers st a b = [] →
      GetPendingSplitsBetweenUsers st b a = [] →
      CreateSettlement st a b = .error .alreadySettled) ∧
    (GetNetBalanceBetweenUsers st a b = 0 →
      (GetPendingSplitsBetweenUsers st a b ≠ [] ∨
        GetPendingSplitsBetweenUsers st b a ≠ []) →
      ∃ st2, CreateSettlement st a b = .ok (st2,
        { id := st.nextSettlementID, payerID := a, receiverID := b,
          amount := 0, status := .pending })) := by
  refine ⟨?_, ?_, ?_, ?_⟩
  · intro hpos
    unfold CreateSettlement
    rw [if_neg hab]
    simp only [gt_iff_lt, hpos, if_true, SettlementRepoCreate]
    split_ifs <;> exact ⟨_, rfl⟩
  · intro hneg
    unfold CreateSettlement
    rw [if_neg hab]
    simp only [gt_iff_lt, not_lt_of_gt hneg, if_false, hneg, if_true,
      SettlementRepoCreate]
    split_ifs <;> exact ⟨_, rfl⟩
  · intro h0 he1 he2
    unfold CreateSettlement
    rw [if_neg hab]
    simp [h0, he1, he2]
  · intro h0 hne
    unfold CreateSettlement
    rw [if_neg hab]
    have hcond : ¬(GetPendingSplitsBetweenUsers st a b).length = 0 ∨
        ¬(GetPendingSplitsBetweenUsers st b a).length = 0 := by
      rcases hne with hne | hne
      · exact Or.inl (by simpa [List.length_eq_zero] using hne)
      · exact Or.inr (by simpa [List.length_eq_zero] using hne)
    rcases hcond with hc | hc <;>
    · simp only [h0, lt_irrefl, gt_iff_lt, if_false, hc, false_and, and_false,
        SettlementRepoCreate]
      split_ifs <;> exact ⟨_, rfl⟩

/-- CLAIM C3, witness: on the pending store, user 3 owes user 2, so a
settlement initiated by 3 against 2 is created with payer 3 and the
rounded positive net amount. -/
theorem createSettlement_direction_witness :
    0 < GetNetBalanceBetweenUsers pendingStore 3 2 ∧
    ∃ st2, CreateSettlement pendingStore 3 2 = .ok (st2,
      { id := pendingStore.nextSettlementID, payerID := 3, receiverID := 2,
        amount := roundToTwoDecimals (GetNetBalanceBetweenUsers pendingStore 3 2),
        status := .pending }) := by
  have hpos : 0 < GetNetBalanceBetweenUsers pendingStore 3 2 := by
    simp [GetNetBalanceBetweenUsers, GetPendingSplitsBetweenUsers,
      isOutstandingSplit, expensePayerOf, GetExpenseByID, pendingStore,
      pendingSplit, dinnerExpense]
  exact ⟨hpos, (createSettlement_direction pendingStore 3 2 (by decide)).1 hpos⟩

/-- On success, CreateSettlement leaves the splits table equal to the old
table with every split whose id was collected from the two outstanding
queries locked to the new settlement id. -/
theorem createSettlement_locks_splits (st : Store) (a b : Int) (st1 : Store)
    (sett : Settlement) (h : CreateSettlement st a b = .ok (st1, sett)) :
    st1.splits = st.splits.map (fun s =>
      if ((GetPendingSplitsBetweenUsers st a b
            ++ GetPendingSplitsBetweenUsers st b a).map Split.id).contains s.id
      then { s with settlementID := some sett.id } else s) := by
  unfold CreateSettlement at h
  by_cases hab : a = b
  · rw [if_pos hab] at h; exact absurd h (by simp)
  · rw [if_neg hab] at h
    simp only [] at h
    split_ifs at h
    any_goals simp [Prod.ext_iff] at h
    all_goals (
      obtain ⟨hst1, hsett⟩ := h
      subst hst1
      subst hsett
      first
      | (rw [lockSplits_splits]
         simp only [List.map_append]
         rfl)
      | (rename_i hlen
         have hnil : List.map Split.id (GetPendingSplitsBetweenUsers st a b
             ++ GetPendingSplitsBetweenUsers st b a) = ([] : List Int) := by
           rw [← List.length_eq_zero]
           omega
         rw [hnil]
         simp [SettlementRepoCreate]))

/-- CLAIM C4. Immediately after a successful CreateSettlement between two
users, every split that was unlocked and outstanding (PENDING or PAID)
between them, in either direction, is locked to the new settlement id;
and after that settlement is successfully rejected, the very same split
record, lock-free and with its pre-lock status, is back in the store. -/
theorem settlement_lock_and_reject_restores (st : Store) (a b u : Int)
    (st1 st2 : Store) (sett : Settlement) (y : Option Settlement)
    (h1 : CreateSettlement st a b = .ok (st1, sett))
    (h2 : SettlementReject st1 sett.id u = .ok (st2, y)) :
    ∀ s ∈ st.splits,
      (isOutstandingSplit st a b s = true ∨ isOutstandingSplit st b a s = true) →
      ({ s with settlementID := some sett.id } ∈ st1.splits ∧ s ∈ st2.splits) := by
  intro s hs hout
  have hno : s.settlementID = none := by
    rcases hout with h | h <;>
    · simp only [isOutstandingSplit, Bool.and_eq_true, beq_iff_eq] at h
      exact h.2
  obtain ⟨sid, eid, bid, amt, stat, dr, stlID⟩ := s
  simp only at hno
  subst hno
  have hmem : (⟨sid, eid, bid, amt, stat, dr, none⟩ : Split)
      ∈ GetPendingSplitsBetweenUsers st a b
        ++ GetPendingSplitsBetweenUsers st b a := by
    rcases hout with h | h
    · exact List.mem_append_left _ (List.mem_filter.2 ⟨hs, h⟩)
    · exact List.mem_append_right _ (List.mem_filter.2 ⟨hs, h⟩)
  have hcontains : ((GetPendingSplitsBetweenUsers st a b
      ++ GetPendingSplitsBetweenUsers st b a).map Split.id).contains sid = true :=
    List.elem_eq_true_of_mem (List.mem_map.2 ⟨_, hmem, rfl⟩)
  have hsplits1 := createSettlement_locks_splits st a b st1 sett h1
  have hlockmem : (⟨sid, eid, bid, amt, stat, dr, some sett.id⟩ : Split)
      ∈ st1.splits := by
    rw [hsplits1]
    refine List.mem_map.2 ⟨_, hs, ?_⟩
    dsimp only
    rw [if_pos hcontains]
  refine ⟨hlockmem, ?_⟩
  unfold SettlementReject at h2
  split at h2
  · exact absurd h2 (by simp)
  · split_ifs at h2
    simp only [Prod.ext_iff, Except.ok.injEq] at h2
    obtain ⟨hst2, -⟩ := h2
    subst hst2
    show (⟨sid, eid, bid, amt, stat, dr, none⟩ : Split)
      ∈ (UnlockSplitsFromSettlement
        (UpdateSettlementStatus st1 sett.id .rejected).1 sett.id).splits
    have hupd : (UpdateSettlementStatus st1 sett.id SettlementStatus.rejected).1.splits
        = st1.splits := rfl
    simp only [UnlockSplitsFromSettlement]
    rw [hupd, hsplits1, List.map_map]
    refine List.mem_map.2 ⟨_, hs, ?_⟩
    dsimp only [Function.comp]
    rw [if_pos hcontains]
    simp

/-- The pending store right after user 3 settles with user 2: the split is
locked to the new settlement 1. -/
def settledPendingStore : Store :=
  ⟨[dinnerExpense], [⟨1, 1, 3, 15, .pending, none, some 1⟩],
    [⟨1, 3, 2, 15, .pending⟩], 2⟩

/-- The pending store after that settlement is rejected: the split is
unlocked again with its PENDING status. -/
def rejectedPendingStore : Store :=
  ⟨[dinnerExpense], [pendingSplit], [⟨1, 3, 2, 15, .rejected⟩], 2⟩

/-- CLAIM C4, witness: on the pending store, settling 3 against 2 locks
the outstanding split to settlement 1, and rejecting restores it. -/
theorem settlement_lock_and_reject_restores_witness :
    ∃ st1 sett st2 y,
      CreateSettlement pendingStore 3 2 = .ok (st1, sett) ∧
      SettlementReject st1 sett.id 2 = .ok (st2, y) ∧
      ∀ s ∈ pendingStore.splits,
        (isOutstandingSplit pendingStore 3 2 s = true ∨
          isOutstandingSplit pendingStore 2 3 s = true) →
        ({ s with settlementID := some sett.id } ∈ st1.splits ∧ s ∈ st2.splits) := by
  have hq12 : GetPendingSplitsBetweenUsers pendingStore 3 2 = [pendingSplit] := by
    simp [GetPendingSplitsBetweenUsers, isOutstandingSplit, expensePayerOf,
      GetExpenseByID, pendingStore, pendingSplit, dinnerExpense]
  have hq21 : GetPendingSplitsBetweenUsers pendingStore 2 3 = [] := by
    simp [GetPendingSplitsBetweenUsers, isOutstandingSplit, expensePayerOf,
      GetExpenseByID, pendingStore, pendingSplit, dinnerExpense]
  have hnet : GetNetBalanceBetweenUsers pendingStore 3 2 = 15 := by
    rw [GetNetBalanceBetweenUsers, hq12, hq21]
    simp [pendingSplit]
  have hc : CreateSettlement pendingStore 3 2
      = .ok (settledPendingStore, ⟨1, 3, 2, 15, .pending⟩) := by
    unfold CreateSettlement
    rw [if_neg (by decide)]
    simp only [hq12, hq21, hnet]
    norm_num [roundToTwoDecimals, goRound, Int.floor_eq_iff,
      SettlementRepoCreate, LockSplitsToSettlement, lockSplitOne,
      pendingStore, pendingSplit, dinnerExpense, settledPendingStore]
  have hr : SettlementReject settledPendingStore 1 2
      = .ok (rejectedPendingStore, some ⟨1, 3, 2, 15, .rejected⟩) := rfl
  exact ⟨_, _, _, _, hc, hr,
    settlement_lock_and_reject_restores pendingStore 3 2 2 _ _ _ _ hc hr⟩

/-! Arithmetic lemmas for the split strategy sums. -/

/-- The sum of a constant-valued map is length times the constant. -/
theorem sum_map_const {α : Type} (l : List α) (c : ℚ) :
    (l.map (fun _ => c)).sum = l.length * c := by
  induction l with
  | nil => simp
  | cons a t ih =>
    simp only [List.map_cons, List.sum_cons, List.length_cons, ih]
    push_cast
    ring

/-- CLAIM C5, amended. For the EVEN strategy with a total that is a whole
number of cents and at least one participant other than the payer, every
debtor after the first owes round2(total / N) and the debtor amounts sum
to total minus the per-head share exactly. -/
theorem even_split_sum (total : ℚ) (payerID : Int) (ps : List SplitInput)
    (htot : 0 ≤ total) (hc : Cents total)
    (hdeb : ∃ p ∈ ps, p.userID ≠ payerID) :
    ∃ outs, EvenStrategy.Calculate total payerID ps = .ok outs ∧
      (outs.map SplitOutput.amountOwed).sum
        = total - roundToTwoDecimals (total / ps.length) ∧
      ∀ o ∈ outs.tail,
        o.amountOwed = roundToTwoDecimals (total / ps.length) := by
  obtain ⟨p0, hp0, hne0⟩ := hdeb
  have hpslen : ps.length ≠ 0 := by
    intro hlen
    rw [List.length_eq_zero] at hlen
    subst hlen
    exact absurd hp0 (by simp)
  have hval : EvenStrategy.Validate total ps = .ok () := by
    unfold EvenStrategy.Validate
    rw [if_neg hpslen, if_neg (not_lt.2 htot)]
  have hpmem : p0 ∈ filterPayer payerID ps :=
    List.mem_filter.2 ⟨hp0, by simpa using hne0⟩
  cases hd : filterPayer payerID ps with
  | nil => rw [hd] at hpmem; exact absurd hpmem (by simp)
  | cons d0 rest =>
    have hsharec : Cents (roundToTwoDecimals (total / ps.length)) :=
      cents_roundToTwoDecimals _
    obtain ⟨m, hm⟩ := hsharec
    have hdiffc : Cents (total - roundToTwoDecimals (total / ps.length)
        - roundToTwoDecimals (total / ps.length) * ((d0 :: rest).length : ℚ)) :=
      (hc.sub (cents_roundToTwoDecimals _)).sub
        ((cents_roundToTwoDecimals _).mul_natCast _)
    have hdiff : roundToTwoDecimals (total - roundToTwoDecimals (total / ps.length)
        - roundToTwoDecimals (total / ps.length) * ((d0 :: rest).length : ℚ))
        = total - roundToTwoDecimals (total / ps.length)
          - roundToTwoDecimals (total / ps.length) * ((d0 :: rest).length : ℚ) :=
      roundToTwoDecimals_of_cents hdiffc
    have hcalc : EvenStrategy.Calculate total payerID ps = .ok
        ({ userID := d0.userID,
           amountOwed :=
             if roundToTwoDecimals (total - roundToTwoDecimals (total / ps.length)
                 - roundToTwoDecimals (total / ps.length) * ((d0 :: rest).length : ℚ)) ≠ 0
             then roundToTwoDecimals (roundToTwoDecimals (total / ps.length)
               + roundToTwoDecimals (total - roundToTwoDecimals (total / ps.length)
                 - roundToTwoDecimals (total / ps.length) * ((d0 :: rest).length : ℚ)))
             else roundToTwoDecimals (total / ps.length) } ::
          rest.map (fun d =>
            { userID := d.userID,
              amountOwed := roundToTwoDecimals (total / ps.length) })) := by
      unfold EvenStrategy.Calculate
      rw [hval, hd]
    refine ⟨_, hcalc, ?_, ?_⟩
    · simp only [List.map_cons, List.sum_cons, List.map_map]
      have hconst : (rest.map (SplitOutput.amountOwed ∘ fun d =>
          { userID := d.userID,
            amountOwed := roundToTwoDecimals (total / ps.length) })).sum
          = rest.length * roundToTwoDecimals (total / ps.length) := by
        rw [show (SplitOutput.amountOwed ∘ fun d : SplitInput =>
            { userID := d.userID,
              amountOwed := roundToTwoDecimals (total / ps.length) : SplitOutput })
          = fun _ => roundToTwoDecimals (total / ps.length) from rfl]
        exact sum_map_const rest _
      rw [hconst]
      by_cases hz : roundToTwoDecimals (total - roundToTwoDecimals (total / ps.length)
          - roundToTwoDecimals (total / ps.length) * ((d0 :: rest).length : ℚ)) = 0
      · rw [if_neg (by simpa using hz)]
        rw [hdiff] at hz
        simp only [List.length_cons] at hz
        push_cast at hz ⊢
        linarith
      · rw [if_pos hz]
        have hadd : Cents (roundToTwoDecimals (total / ps.length)
            + roundToTwoDecimals (total - roundToTwoDecimals (total / ps.length)
              - roundToTwoDecimals (total / ps.length) * ((d0 :: rest).length : ℚ))) :=
          (cents_roundToTwoDecimals _).add (cents_roundToTwoDecimals _)
        rw [roundToTwoDecimals_of_cents hadd, hdiff]
        simp only [List.length_cons]
        push_cast
        ring
    · intro o ho
      simp only [List.tail_cons, List.mem_map] at ho
      obtain ⟨d, -, rfl⟩ := ho
      rfl

/-- CLAIM C5, counterexample. The exact-sum property fails as stated: with
the sub-cent total 0.005 and two participants the sole debtor owes 0.01,
not 0.005 - round2(0.0025) = 0.005; and with a duplicated payer as both
participants the debt list is empty with sum 0, not 1 - round2(0.5). -/
theorem even_split_sum_counterexample :
    (EvenStrategy.Calculate (1/200) 1 [⟨1, none, none⟩, ⟨2, none, none⟩]
        = .ok [⟨2, 1/100⟩] ∧
      (1 : ℚ)/100 ≠ 1/200 - roundToTwoDecimals ((1/200) / 2)) ∧
    (EvenStrategy.Calculate 1 1 [⟨1, none, none⟩, ⟨1, none, none⟩] = .ok [] ∧
      (0 : ℚ) ≠ 1 - roundToTwoDecimals ((1 : ℚ) / 2)) := by
  refine ⟨⟨?_, ?_⟩, ⟨?_, ?_⟩⟩
  · simp only [EvenStrategy.Calculate, EvenStrategy.Validate, filterPayer]
    norm_num
    norm_num [roundToTwoDecimals, goRound, Int.floor_eq_iff]
  · norm_num [roundToTwoDecimals, goRound, Int.floor_eq_iff]
  · simp only [EvenStrategy.Calculate, EvenStrategy.Validate, filterPayer]
    norm_num
  · norm_num [roundToTwoDecimals, goRound, Int.floor_eq_iff]

/-- CLAIM C5, witness: 90 split evenly among three participants gives two
debtors whose amounts sum to 90 minus the per-head share of 30. -/
theorem even_split_sum_witness :
    ∃ outs, EvenStrategy.Calculate 90 1
        [⟨1, none, none⟩, ⟨2, none, none⟩, ⟨3, none, none⟩] = .ok outs ∧
      (outs.map SplitOutput.amountOwed).sum
        = 90 - roundToTwoDecimals (90 / (([⟨1, none, none⟩, ⟨2, none, none⟩,
            ⟨3, none, none⟩] : List SplitInput).length : ℚ)) ∧
      ∀ o ∈ outs.tail,
        o.amountOwed = roundToTwoDecimals (90 / (([⟨1, none, none⟩,
          ⟨2, none, none⟩, ⟨3, none, none⟩] : List SplitInput).length : ℚ)) :=
  even_split_sum 90 1 _ (by norm_num) ⟨9000, by norm_num⟩
    ⟨⟨2, none, none⟩, by simp, by decide⟩

/-- When every participant carries a percentage in range, the validation
loop returns the sum of the carried percentages. -/
theorem sumPercentages_ok (ps : List SplitInput)
    (hall : ∀ p ∈ ps, ∃ q, p.percentage = some q ∧ 0 ≤ q ∧ q ≤ 100) :
    sumPercentages ps = .ok ((ps.map (fun p => p.percentage.getD 0)).sum) := by
  induction ps with
  | nil => simp [sumPercentages]
  | cons p t ih =>
    obtain ⟨q, hq, h0, h100⟩ := hall p (by simp)
    simp only [sumPercentages, hq]
    rw [if_neg (not_or.2 ⟨not_lt.2 h0, not_lt.2 h100⟩)]
    simp [ih (fun x hx => hall x (by simp [hx])), hq]

/-- Adjusting the last output by a whole-cent difference shifts the sum of
the amounts by exactly that difference, when every amount is whole cents. -/
theorem adjustLast_sum (difference : ℚ) (hdc : Cents difference) :
    ∀ outs : List SplitOutput, outs ≠ [] →
      (∀ o ∈ outs, Cents o.amountOwed) →
      ((adjustLast outs difference).map SplitOutput.amountOwed).sum
        = (outs.map SplitOutput.amountOwed).sum + difference := by
  intro outs
  induction outs with
  | nil => intro h; exact absurd rfl h
  | cons o t ih =>
    intro _ hcents
    cases t with
    | nil =>
      simp [adjustLast,
        roundToTwoDecimals_of_cents ((hcents o (by simp)).add hdc)]
    | cons o1 t1 =>
      simp only [adjustLast, List.map_cons, List.sum_cons]
      rw [ih (by simp) (fun x hx => hcents x (by simp [hx]))]
      simp only [List.map_cons, List.sum_cons]
      ring

/-- When validation passes and at least one debtor exists, the percentage
calculation reduces to the rounded per-debtor amounts with the last
debtor adjusted by the rounded difference when it is non-zero. -/
theorem percentageCalculate_unfold (total : ℚ) (payerID : Int)
    (ps : List SplitInput)
    (hval : PercentageStrategy.Validate total ps = .ok ())
    (hne : (filterPayer payerID ps).isEmpty = false) :
    PercentageStrategy.Calculate total payerID ps =
      (let outputs := (filterPayer payerID ps).map (fun d =>
          { userID := d.userID,
            amountOwed := roundToTwoDecimals (total * d.percentage.getD 0 / 100) });
        let totalCalculated := (outputs.map SplitOutput.amountOwed).sum;
        let expectedFromDebtors := roundToTwoDecimals
          (total * (100 - payerPercentageOf payerID ps) / 100);
        let difference :=
          roundToTwoDecimals (expectedFromDebtors - totalCalculated);
        if 0 < outputs.length ∧ difference ≠ 0
        then .ok (adjustLast outputs difference) else .ok outputs) := by
  unfold PercentageStrategy.Calculate
  simp only [hval, hne, Bool.false_eq_true, if_false]

/-- CLAIM C6, amended. For the PERCENTAGE strategy with every percentage
present and in range, the percentages summing to 100 within a cent, and
at least one participant other than the payer, the debtor amounts sum to
round2(total times (100 - payerPct) / 100) exactly, where payerPct is the
payer percentage defaulting to 0. -/
theorem percentage_split_sum (total : ℚ) (payerID : Int) (ps : List SplitInput)
    (htot : 0 ≤ total)
    (hall : ∀ p ∈ ps, ∃ q, p.percentage = some q ∧ 0 ≤ q ∧ q ≤ 100)
    (hsum : |(ps.map (fun p => p.percentage.getD 0)).sum - 100| ≤ 1/100)
    (hdeb : ∃ p ∈ ps, p.userID ≠ payerID) :
    ∃ outs, PercentageStrategy.Calculate total payerID ps = .ok outs ∧
      (outs.map SplitOutput.amountOwed).sum
        = roundToTwoDecimals
            (total * (100 - payerPercentageOf payerID ps) / 100) := by
  obtain ⟨p0, hp0, hne0⟩ := hdeb
  have hpslen : ps.length ≠ 0 := by
    intro hlen
    rw [List.length_eq_zero] at hlen
    subst hlen
    exact absurd hp0 (by simp)
  have hval : PercentageStrategy.Validate total ps = .ok () := by
    unfold PercentageStrategy.Validate
    rw [if_neg hpslen, if_neg (not_lt.2 htot)]
    simp only [sumPercentages_ok ps hall]
    rw [if_neg (not_lt.2 hsum)]
  have hpmem : p0 ∈ filterPayer payerID ps :=
    List.mem_filter.2 ⟨hp0, by simpa using hne0⟩
  have hne : filterPayer payerID ps ≠ [] := by
    intro hnil
    rw [hnil] at hpmem
    exact absurd hpmem (by simp)
  have hempty : (filterPayer payerID ps).isEmpty = false := by
    cases he : (filterPayer payerID ps).isEmpty
    · rfl
    · exact absurd (List.isEmpty_iff.1 he) hne
  rw [percentageCalculate_unfold total payerID ps hval hempty]
  simp only []
  set outputs := (filterPayer payerID ps).map (fun d =>
    ({ userID := d.userID,
       amountOwed := roundToTwoDecimals (total * d.percentage.getD 0 / 100) }
      : SplitOutput)) with hout
  set expected := roundToTwoDecimals
    (total * (100 - payerPercentageOf payerID ps) / 100) with hexp
  have htcc : Cents ((outputs.map SplitOutput.amountOwed).sum) := by
    refine cents_list_sum ?_
    intro x hx
    rw [hout] at hx
    simp only [List.map_map, List.mem_map] at hx
    obtain ⟨d, -, rfl⟩ := hx
    exact cents_roundToTwoDecimals _
  have hexpc : Cents expected := cents_roundToTwoDecimals _
  have hdiffeq : roundToTwoDecimals (expected - (outputs.map SplitOutput.amountOwed).sum)
      = expected - (outputs.map SplitOutput.amountOwed).sum :=
    roundToTwoDecimals_of_cents (hexpc.sub htcc)
  have hlen : 0 < outputs.length := by
    rw [hout]
    simpa [List.length_map] using List.length_pos.2 hne
  by_cases hz : roundToTwoDecimals
      (expected - (outputs.map SplitOutput.amountOwed).sum) = 0
  · refine ⟨outputs, ?_, ?_⟩
    · rw [if_neg (fun hcon => hcon.2 hz)]
    · rw [hdiffeq] at hz
      linarith
  · refine ⟨adjustLast outputs
      (roundToTwoDecimals (expected - (outputs.map SplitOutput.amountOwed).sum)),
      ?_, ?_⟩
    · rw [if_pos ⟨hlen, hz⟩]
    · rw [adjustLast_sum _ (cents_roundToTwoDecimals _) outputs
        (List.length_pos.1 hlen) ?hcents, hdiffeq]
      · ring
      case hcents =>
        intro o ho
        rw [hout] at ho
        simp only [List.mem_map] at ho
        obtain ⟨d, -, rfl⟩ := ho
        exact cents_roundToTwoDecimals _

/-- CLAIM C6, counterexample. When every participant is the payer (here
the payer listed twice at 50 percent each, in range and summing to 100),
Calculate returns the empty debt list with sum 0, yet
round2(total times (100 - payerPct) / 100) is 50: the claimed equation
fails in the zero-debtor case. -/
theorem percentage_split_sum_counterexample :
    PercentageStrategy.Calculate 100 1 [⟨1, some 50, none⟩, ⟨1, some 50, none⟩]
      = .ok [] ∧
    (([] : List SplitOutput).map SplitOutput.amountOwed).sum
      ≠ roundToTwoDecimals (100 * (100 - payerPercentageOf 1
          [⟨1, some 50, none⟩, ⟨1, some 50, none⟩]) / 100) := by
  constructor
  · simp only [PercentageStrategy.Calculate, PercentageStrategy.Validate,
      sumPercentages, payerPercentageOf, filterPayer]
    norm_num
  · simp [payerPercentageOf]
    norm_num [roundToTwoDecimals, goRound, Int.floor_eq_iff]

/-- CLAIM C6, witness: 100 split 0/50/30/20 with the payer at 0 percent
yields debts summing to round2(100 times 100 / 100) = 100. -/
theorem percentage_split_sum_witness :
    ∃ outs, PercentageStrategy.Calculate 100 1
        [⟨1, some 0, none⟩, ⟨2, some 50, none⟩, ⟨3, some 30, none⟩,
          ⟨4, some 20, none⟩] = .ok outs ∧
      (outs.map SplitOutput.amountOwed).sum
        = roundToTwoDecimals (100 * (100 - payerPercentageOf 1
            [⟨1, some 0, none⟩, ⟨2, some 50, none⟩, ⟨3, some 30, none⟩,
              ⟨4, some 20, none⟩]) / 100) := by
  refine percentage_split_sum 100 1 _ (by norm_num) ?_ ?_
    ⟨⟨2, some 50, none⟩, by simp, by decide⟩
  · intro p hp
    simp only [List.mem_cons, List.not_mem_nil, or_false] at hp
    rcases hp with rfl | rfl | rfl | rfl <;>
      exact ⟨_, rfl, by norm_num, by norm_num⟩
  · simp
    norm_num

/-- When every participant carries a non-negative amount, the exact-split
validation loop returns the sum of the stated amounts. -/
theorem sumExactAmounts_ok (ps : List SplitInput)
    (hall : ∀ p ∈ ps, ∃ a, p.amount = some a ∧ 0 ≤ a) :
    sumExactAmounts ps = .ok ((ps.map (fun p => p.amount.getD 0)).sum) := by
  induction ps with
  | nil => simp [sumExactAmounts]
  | cons p t ih =>
    obtain ⟨a, ha, h0⟩ := hall p (by simp)
    simp only [sumExactAmounts, ha]
    rw [if_neg (not_lt.2 h0)]
    simp [ih (fun x hx => hall x (by simp [hx])), ha]

/-- CLAIM C7. For the EXACT strategy with a non-empty participant list, a
non-negative total and every participant carrying a non-negative amount:
if the stated amounts sum to the total within 0.01, every debtor owes
round2 of their stated amount verbatim with no redistribution; if the
stated amounts are off by more than 0.01, the call fails with
invalidExactAmounts. -/
theorem exact_split_amounts (total : ℚ) (payerID : Int) (ps : List SplitInput)
    (hps : ps ≠ []) (htot : 0 ≤ total)
    (hall : ∀ p ∈ ps, ∃ a, p.amount = some a ∧ 0 ≤ a) :
    (|(ps.map (fun p => p.amount.getD 0)).sum - total| ≤ 1/100 →
      ExactStrategy.Calculate total payerID ps
        = .ok ((filterPayer payerID ps).map (fun d =>
            { userID := d.userID,
              amountOwed := roundToTwoDecimals (d.amount.getD 0) }))) ∧
    (1/100 < |(ps.map (fun p => p.amount.getD 0)).sum - total| →
      ExactStrategy.Calculate total payerID ps = .error .invalidExactAmounts) := by
  have hpslen : ps.length ≠ 0 := fun hlen =>
    hps (List.length_eq_zero.1 hlen)
  constructor
  · intro htol
    have hval : ExactStrategy.Validate total ps = .ok () := by
      unfold ExactStrategy.Validate
      rw [if_neg hpslen, if_neg (not_lt.2 htot)]
      simp only [sumExactAmounts_ok ps hall]
      rw [if_neg (not_lt.2 htol)]
    unfold ExactStrategy.Calculate
    simp only [hval]
    by_cases hemp : (filterPayer payerID ps).isEmpty
    · rw [if_pos hemp]
      rw [List.isEmpty_iff] at hemp
      rw [hemp]
      rfl
    · rw [if_neg hemp]
  · intro htol
    have hval : ExactStrategy.Validate total ps
        = .error .invalidExactAmounts := by
      unfold ExactStrategy.Validate
      rw [if_neg hpslen, if_neg (not_lt.2 htot)]
      simp only [sumExactAmounts_ok ps hall]
      rw [if_pos htol]
    unfold ExactStrategy.Calculate
    simp only [hval]

/-- CLAIM C7, witness: 75 split exactly as 30/25/20 yields debts of
exactly 25 and 20 for the two non-payers, and an off-by-0.02 statement
of the same amounts is rejected. -/
theorem exact_split_amounts_witness :
    ExactStrategy.Calculate 75 1
      [⟨1, none, some 30⟩, ⟨2, none, some 25⟩, ⟨3, none, some 20⟩]
      = .ok ((filterPayer 1 [⟨1, none, some 30⟩, ⟨2, none, some 25⟩,
          ⟨3, none, some 20⟩]).map (fun d =>
            { userID := d.userID,
              amountOwed := roundToTwoDecimals (d.amount.getD 0) })) ∧
    ExactStrategy.Calculate (7502/100) 1
      [⟨1, none, some 30⟩, ⟨2, none, some 25⟩, ⟨3, none, some 20⟩]
      = .error .invalidExactAmounts := by
  constructor
  · refine (exact_split_amounts 75 1 _ (by decide) (by norm_num) ?_).1 ?_
    · intro p hp
      simp only [List.mem_cons, List.not_mem_nil, or_false] at hp
      rcases hp with rfl | rfl | rfl <;>
        exact ⟨_, rfl, by norm_num⟩
    · simp
      norm_num
  · refine (exact_split_amounts (7502/100) 1 _ (by decide) (by norm_num) ?_).2 ?_
    · intro p hp
      simp only [List.mem_cons, List.not_mem_nil, or_false] at hp
      rcases hp with rfl | rfl | rfl <;>
        exact ⟨_, rfl, by norm_num⟩
    · have h75 : (([⟨1, none, some 30⟩, ⟨2, none, some 25⟩,
          ⟨3, none, some 20⟩] : List SplitInput).map
            (fun p => p.amount.getD 0)).sum = 75 := by
        simp
        norm_num
      rw [h75, abs_sub_comm, abs_of_pos (by norm_num : (0:ℚ) < 7502/100 - 75)]
      norm_num
